import Mathlib

/-!
A shallow embedding of `threadpool.h`, a fixed-size pthread worker pool.

Modelling conventions:
* Pointer-sized C values (`void (*)(void*)` function pointers and `void*`
  arguments) are modelled as `Nat`; `0` plays the role of `NULL`.
* The `TaskStack` intrusive linked list is modelled as a `List Task`
  (head of the list = top of the stack = `pool->task_stack`).
* `pthread_mutex_t pool_mutex` is modelled as a boolean `mutex_held`
  field: `POOL_CRITICAL_BEGIN` sets it, `POOL_CRITICAL_END` clears it.
  A critical section that runs to its matching `POOL_CRITICAL_END`
  therefore leaves `mutex_held` as it found it; a path that returns
  without reaching `POOL_CRITICAL_END` leaves `mutex_held = true`.
* `size_t` arithmetic is `Nat` with explicit wraparound modulo `2 ^ 64`
  where the C code can underflow (`pool->num_threads_running--`).
* The resources torn down at the end of `POOL_destroy`
  (`pthread_mutex_destroy` and `free(pool->threads)`) are modelled by a
  single `resources_freed` flag.
* Worker threads run concurrently with `POOL_destroy`'s polling loops.
  This is modelled by a fair interleaving: each iteration of a polling
  loop lets one worker perform one iteration of `await_and_do_tasks`
  (when at least one worker is still running).  The loops take explicit
  fuel and return `none` when the fuel runs out, which models the case
  where the C code would still be spinning.
-/

namespace TP

/-- One `TaskStack` node's payload: the C struct stores a function
pointer `task_fn` and an argument pointer `task_args`. -/
structure Task where
  task_fn : Nat
  task_args : Nat
deriving DecidableEq, Repr

/-- The `Threadpool` struct.  `mutex_held` models `pool_mutex`,
`task_stack` the intrusive `TaskStack*` list, `resources_freed` whether
`POOL_destroy` has reached its final teardown. -/
structure Threadpool where
  mutex_held : Bool
  task_stack : List Task
  num_threads : Nat
  num_threads_running : Nat
  resources_freed : Bool
  is_shutdown : Bool
deriving DecidableEq, Repr

/-- `size_t` decrement: `x--` on a 64-bit unsigned value. -/
def sizeSub1 (x : Nat) : Nat :=
  (x + (2 ^ 64 - 1)) % 2 ^ 64

/-- Result of a critical-section bracket: either the pool with the new
mutex state, or a process exit with the given status. -/
inductive CritResult where
  | ok (pool : Threadpool)
  | exit (status : Nat)
deriving DecidableEq, Repr

/-- The `POOL_CRITICAL_BEGIN` macro: `pthread_mutex_lock` returns
`lock_r`; a nonzero return perrors and calls `exit(1)`, otherwise the
mutex is now held. -/
def POOL_CRITICAL_BEGIN (pool : Threadpool) (lock_r : Nat) : CritResult :=
  if lock_r ≠ 0 then .exit 1
  else .ok { pool with mutex_held := true }

/-- The `POOL_CRITICAL_END` macro: `pthread_mutex_unlock` returns
`unlock_r`; a nonzero return perrors and calls `exit(1)`, otherwise the
mutex is released. -/
def POOL_CRITICAL_END (pool : Threadpool) (unlock_r : Nat) : CritResult :=
  if unlock_r ≠ 0 then .exit 1
  else .ok { pool with mutex_held := false }

/-- `POOL_create(pool, num_threads)`.  First component: the initialized
pool (`PTHREAD_MUTEX_INITIALIZER` leaves the mutex unlocked, the task
stack is `NULL`, `is_shutdown` false, both counters `num_threads`, the
`threads` array freshly allocated).  Second component: the number of
`pthread_create` calls made by the spawn loop, which runs
`num_threads` times. -/
def POOL_create (num_threads : Nat) : Threadpool × Nat :=
  ({ mutex_held := false
     task_stack := []
     num_threads := num_threads
     num_threads_running := num_threads
     resources_freed := false
     is_shutdown := false },
   num_threads)

/-- `POOL_exectask(pool, task_fn, task_args)`, locks assumed to succeed.
Returns the C `bool` result and the pool after the call.  Faithful to
the source: the `is_shutdown` early `return 0` happens inside the
critical section and does NOT run `POOL_CRITICAL_END`, so on that path
the returned pool still has `mutex_held = true`.  On the success path a
new node holding exactly `task_fn`/`task_args` is pushed on the head of
the task stack and the mutex is released. -/
def POOL_exectask (pool : Threadpool) (task_fn task_args : Nat) :
    Bool × Threadpool :=
  let pool := { pool with mutex_held := true }
  if pool.is_shutdown then
    (false, pool)
  else
    let work : Task := { task_fn := task_fn, task_args := task_args }
    let pool := { pool with task_stack := work :: pool.task_stack }
    (true, { pool with mutex_held := false })

/-- What one iteration of `await_and_do_tasks`'s `while (true)` loop did
to the pool: the worker exited (after decrementing
`num_threads_running`), popped the task `t`, or found nothing and will
`sched_yield` and loop. -/
inductive WorkerResult where
  | exited (pool : Threadpool)
  | tookTask (pool : Threadpool) (t : Task)
  | noTask (pool : Threadpool)
deriving DecidableEq, Repr

/-- One iteration of the worker loop in `await_and_do_tasks`, locks
assumed to succeed.  Under the lock: if `is_shutdown` and the stack is
`NULL`, decrement `num_threads_running`, unlock and return; otherwise
pop the head node if there is one.  The lock is acquired and released
within the iteration, so `mutex_held` ends `false` in every case. -/
def workerStep (pool : Threadpool) : WorkerResult :=
  if pool.is_shutdown = true ∧ pool.task_stack = [] then
    .exited { pool with
              num_threads_running := sizeSub1 pool.num_threads_running
              mutex_held := false }
  else
    match pool.task_stack with
    | work :: rest =>
        .tookTask { pool with task_stack := rest, mutex_held := false } work
    | [] => .noTask { pool with mutex_held := false }

/-- The first polling loop of `POOL_destroy`: spin (yielding) until
`pool->task_stack` is observed `NULL` under the lock.  Between polls one
still-running worker performs one loop iteration; a task it takes is
appended to `execed` (the trace of executed tasks).  When no worker is
running the pool state cannot change and the loop spins its fuel away. -/
def drainQueueLoop : Nat → Threadpool → List Task →
    Option (Threadpool × List Task)
  | 0, _, _ => none
  | fuel + 1, pool, execed =>
    if pool.task_stack = [] then some (pool, execed)
    else if pool.num_threads_running = 0 then drainQueueLoop fuel pool execed
    else
      match workerStep pool with
      | .exited p => drainQueueLoop fuel p execed
      | .tookTask p t => drainQueueLoop fuel p (execed ++ [t])
      | .noTask p => drainQueueLoop fuel p execed

/-- The second polling loop of `POOL_destroy`: spin (yielding) until
`pool->num_threads_running` is observed `0` under the lock, again
interleaving one worker iteration per poll. -/
def waitRunningLoop : Nat → Threadpool → List Task →
    Option (Threadpool × List Task)
  | 0, _, _ => none
  | fuel + 1, pool, execed =>
    if pool.num_threads_running = 0 then some (pool, execed)
    else
      match workerStep pool with
      | .exited p => waitRunningLoop fuel p execed
      | .tookTask p t => waitRunningLoop fuel p (execed ++ [t])
      | .noTask p => waitRunningLoop fuel p execed

/-- `POOL_destroy(pool)`, locks assumed to succeed.  Sets `is_shutdown`
under the lock, waits for the task stack to be consumed, waits for
`num_threads_running` to reach zero, then tears down the mutex and
frees `pool->threads` (`resources_freed := true`).  Returns `none` when
the fuel for either wait runs out (the C code would still be
spinning), otherwise the final pool and the trace of tasks executed by
workers during the drain. -/
def POOL_destroy (pool : Threadpool) (fuel : Nat) :
    Option (Threadpool × List Task) :=
  match drainQueueLoop fuel
      { pool with is_shutdown := true, mutex_held := false } [] with
  | none => none
  | some (pool, execed) =>
    match waitRunningLoop fuel pool execed with
    | none => none
    | some (pool, execed) =>
        some ({ pool with resources_freed := true }, execed)

/-- A sequence of `POOL_exectask` calls, one per task in `ts`, in list
order.  First component: whether every call returned success. -/
def submitAll : Threadpool → List Task → Bool × Threadpool
  | pool, [] => (true, pool)
  | pool, t :: ts =>
    let r := POOL_exectask pool t.task_fn t.task_args
    let rs := submitAll r.2 ts
    (r.1 && rs.1, rs.2)

/-- `POOL_exectask` with the `pthread_mutex_lock`/`unlock` return codes
made explicit (`lock_r`, `unlock_r`).  `.error s` models `exit(s)`. -/
def POOL_exectaskE (pool : Threadpool) (task_fn task_args : Nat)
    (lock_r unlock_r : Nat) : Except Nat (Bool × Threadpool) :=
  match POOL_CRITICAL_BEGIN pool lock_r with
  | .exit s => .error s
  | .ok pool =>
    if pool.is_shutdown then
      .ok (false, pool)
    else
      let work : Task := { task_fn := task_fn, task_args := task_args }
      let pool := { pool with task_stack := work :: pool.task_stack }
      match POOL_CRITICAL_END pool unlock_r with
      | .exit s => .error s
      | .ok pool => .ok (true, pool)

/-- One worker-loop iteration with the lock/unlock return codes made
explicit.  Either critical-section bracket failing exits the process. -/
def workerStepE (pool : Threadpool) (lock_r unlock_r : Nat) :
    Except Nat WorkerResult :=
  match POOL_CRITICAL_BEGIN pool lock_r with
  | .exit s => .error s
  | .ok pool =>
    if pool.is_shutdown = true ∧ pool.task_stack = [] then
      let pool :=
        { pool with num_threads_running := sizeSub1 pool.num_threads_running }
      match POOL_CRITICAL_END pool unlock_r with
      | .exit s => .error s
      | .ok pool => .ok (.exited pool)
    else
      match pool.task_stack with
      | work :: rest =>
        match POOL_CRITICAL_END { pool with task_stack := rest } unlock_r with
        | .exit s => .error s
        | .ok pool => .ok (.tookTask pool work)
      | [] =>
        match POOL_CRITICAL_END pool unlock_r with
        | .exit s => .error s
        | .ok pool => .ok (.noTask pool)

/-- The first critical section of `POOL_destroy` (setting
`is_shutdown`) with the lock/unlock return codes made explicit. -/
def POOL_destroy_setflag (pool : Threadpool) (lock_r unlock_r : Nat) :
    Except Nat Threadpool :=
  match POOL_CRITICAL_BEGIN pool lock_r with
  | .exit s => .error s
  | .ok pool =>
    let pool := { pool with is_shutdown := true }
    match POOL_CRITICAL_END pool unlock_r with
    | .exit s => .error s
    | .ok pool => .ok pool

/-! ### Helper lemmas -/

theorem sizeSub1_succ (R : Nat) (h : R < 2 ^ 64) : sizeSub1 (R + 1) = R := by
  unfold sizeSub1
  have h2 : R + 1 + (2 ^ 64 - 1) = R + 2 ^ 64 := by omega
  rw [h2, Nat.add_mod_right, Nat.mod_eq_of_lt h]

theorem sizeSub1_of_pos (x : Nat) (h1 : 1 ≤ x) (h2 : x < 2 ^ 64) :
    sizeSub1 x + 1 = x := by
  obtain ⟨R, rfl⟩ : ∃ R, x = R + 1 := ⟨x - 1, by omega⟩
  rw [sizeSub1_succ R (by omega)]

theorem workerStep_exited_inv {pool p : Threadpool}
    (h : workerStep pool = .exited p) :
    pool.is_shutdown = true ∧ pool.task_stack = [] ∧
    p = { pool with
          num_threads_running := sizeSub1 pool.num_threads_running
          mutex_held := false } := by
  unfold workerStep at h
  split at h
  · rename_i hc
    cases h
    exact ⟨hc.1, hc.2, rfl⟩
  · split at h <;> cases h

theorem workerStep_took_inv {pool p : Threadpool} {t : Task}
    (h : workerStep pool = .tookTask p t) :
    ∃ rest, pool.task_stack = t :: rest ∧
      p = { pool with task_stack := rest, mutex_held := false } := by
  unfold workerStep at h
  split at h
  · cases h
  · split at h
    · rename_i work rest hstack
      cases h
      exact ⟨rest, hstack, rfl⟩
    · cases h

theorem workerStep_no_inv {pool p : Threadpool}
    (h : workerStep pool = .noTask p) :
    pool.is_shutdown = false ∧ pool.task_stack = [] ∧
    p = { pool with mutex_held := false } := by
  unfold workerStep at h
  split at h
  · cases h
  · rename_i hc
    split at h
    · cases h
    · rename_i hstack
      cases h
      refine ⟨?_, hstack, rfl⟩
      by_contra hs
      exact hc ⟨by revert hs; cases pool.is_shutdown <;> simp, hstack⟩

theorem drainQueueLoop_some_inv :
    ∀ {fuel : Nat} {pool : Threadpool} {execed : List Task}
      {q : Threadpool} {execed' : List Task},
      drainQueueLoop fuel pool execed = some (q, execed') →
      q.task_stack = [] ∧ q.is_shutdown = pool.is_shutdown ∧
      q.resources_freed = pool.resources_freed ∧
      q.num_threads = pool.num_threads ∧
      q.num_threads_running ≤ pool.num_threads_running := by
  intro fuel
  induction fuel with
  | zero => intro pool execed q execed' h; cases h
  | succ f ih =>
    intro pool execed q execed' h
    unfold drainQueueLoop at h
    split at h
    · rename_i hstack
      cases h
      exact ⟨hstack, rfl, rfl, rfl, le_refl _⟩
    · split at h
      · exact ih h
      · rename_i hstack hrun
        cases hws : workerStep pool with
        | exited p =>
          obtain ⟨_, hEmpty, _⟩ := workerStep_exited_inv hws
          exact absurd hEmpty hstack
        | tookTask p t =>
          rw [hws] at h
          obtain ⟨rest, _, hp⟩ := workerStep_took_inv hws
          obtain ⟨h1, h2, h3, h4, h5⟩ := ih h
          subst hp
          exact ⟨h1, h2, h3, h4, h5⟩
        | noTask p =>
          rw [hws] at h
          obtain ⟨_, _, hp⟩ := workerStep_no_inv hws
          obtain ⟨h1, h2, h3, h4, h5⟩ := ih h
          subst hp
          exact ⟨h1, h2, h3, h4, h5⟩

theorem waitRunningLoop_some_inv :
    ∀ {fuel : Nat} {pool : Threadpool} {execed : List Task}
      {q : Threadpool} {execed' : List Task},
      waitRunningLoop fuel pool execed = some (q, execed') →
      q.num_threads_running = 0 ∧ q.is_shutdown = pool.is_shutdown ∧
      q.resources_freed = pool.resources_freed ∧
      q.num_threads = pool.num_threads ∧
      (pool.task_stack = [] → q.task_stack = [] ∧ execed' = execed) := by
  intro fuel
  induction fuel with
  | zero => intro pool execed q execed' h; cases h
  | succ f ih =>
    intro pool execed q execed' h
    unfold waitRunningLoop at h
    split at h
    · rename_i hrun
      cases h
      exact ⟨hrun, rfl, rfl, rfl, fun hs => ⟨hs, rfl⟩⟩
    · cases hws : workerStep pool with
      | exited p =>
        rw [hws] at h
        obtain ⟨_, hstack, hp⟩ := workerStep_exited_inv hws
        obtain ⟨h1, h2, h3, h4, h5⟩ := ih h
        subst hp
        exact ⟨h1, h2, h3, h4, fun _ => h5 hstack⟩
      | tookTask p t =>
        rw [hws] at h
        obtain ⟨rest, hstack, hp⟩ := workerStep_took_inv hws
        obtain ⟨h1, h2, h3, h4, _⟩ := ih h
        subst hp
        refine ⟨h1, h2, h3, h4, fun hs => ?_⟩
        rw [hs] at hstack
        cases hstack
      | noTask p =>
        rw [hws] at h
        obtain ⟨_, hstack, hp⟩ := workerStep_no_inv hws
        obtain ⟨h1, h2, h3, h4, h5⟩ := ih h
        subst hp
        exact ⟨h1, h2, h3, h4, fun _ => h5 hstack⟩

theorem submitAll_ok :
    ∀ (ts : List Task) (pool : Threadpool),
      pool.is_shutdown = false → pool.mutex_held = false →
      ∃ q, submitAll pool ts = (true, q) ∧
        q.task_stack = ts.reverse ++ pool.task_stack ∧
        q.is_shutdown = false ∧ q.mutex_held = false ∧
        q.num_threads_running = pool.num_threads_running ∧
        q.num_threads = pool.num_threads ∧
        q.resources_freed = pool.resources_freed := by
  intro ts
  induction ts with
  | nil =>
    intro pool hs hm
    exact ⟨pool, rfl, by simp, hs, hm, rfl, rfl, rfl⟩
  | cons t rest ih =>
    intro pool hs hm
    have hexec : POOL_exectask pool t.task_fn t.task_args =
        (true, { pool with
                 task_stack := t :: pool.task_stack
                 mutex_held := false }) := by
      unfold POOL_exectask
      simp only [hs]
      rfl
    obtain ⟨q, hq, h1, h2, h3, h4, h5, h6⟩ :=
      ih { pool with task_stack := t :: pool.task_stack, mutex_held := false }
        hs rfl
    refine ⟨q, ?_, ?_, h2, h3, h4, h5, h6⟩
    · unfold submitAll
      rw [hexec]
      simp only [hq, Bool.true_and]
    · rw [h1]
      simp

theorem drainQueueLoop_run :
    ∀ (s : List Task) (fuel : Nat) (pool : Threadpool) (execed : List Task),
      pool.task_stack = s → pool.is_shutdown = true →
      pool.mutex_held = false → pool.num_threads_running ≠ 0 →
      s.length < fuel →
      ∃ q, drainQueueLoop fuel pool execed = some (q, execed ++ s) ∧
        q.task_stack = [] ∧ q.is_shutdown = true ∧ q.mutex_held = false ∧
        q.num_threads_running = pool.num_threads_running ∧
        q.num_threads = pool.num_threads ∧
        q.resources_freed = pool.resources_freed := by
  intro s
  induction s with
  | nil =>
    intro fuel pool execed hstack hs hm hr hfuel
    cases fuel with
    | zero => omega
    | succ f =>
      refine ⟨pool, ?_, hstack, hs, hm, rfl, rfl, rfl⟩
      unfold drainQueueLoop
      rw [hstack]
      simp
  | cons t rest ih =>
    intro fuel pool execed hstack hs hm hr hfuel
    cases fuel with
    | zero => simp at hfuel
    | succ f =>
      have hws : workerStep pool =
          .tookTask { pool with task_stack := rest, mutex_held := false } t := by
        unfold workerStep
        rw [hstack]
        simp [hs]
      obtain ⟨q, hq, h1, h2, h3, h4, h5, h6⟩ :=
        ih f { pool with task_stack := rest, mutex_held := false } (execed ++ [t])
          rfl hs rfl hr (by simp only [List.length_cons] at hfuel; omega)
      refine ⟨q, ?_, h1, h2, h3, h4, h5, h6⟩
      unfold drainQueueLoop
      rw [if_neg (by rw [hstack]; simp), if_neg hr, hws]
      simp [hq]

theorem waitRunningLoop_run :
    ∀ (R : Nat) (fuel : Nat) (pool : Threadpool) (execed : List Task),
      pool.num_threads_running = R → R < 2 ^ 64 →
      pool.task_stack = [] → pool.is_shutdown = true →
      pool.mutex_held = false → R < fuel →
      ∃ q, waitRunningLoop fuel pool execed = some (q, execed) ∧
        q.num_threads_running = 0 ∧ q.task_stack = [] ∧
        q.is_shutdown = true ∧ q.mutex_held = false ∧
        q.num_threads = pool.num_threads ∧
        q.resources_freed = pool.resources_freed := by
  intro R
  induction R with
  | zero =>
    intro fuel pool execed hR hRb hstack hs hm hfuel
    cases fuel with
    | zero => omega
    | succ f =>
      refine ⟨pool, ?_, hR, hstack, hs, hm, rfl, rfl⟩
      unfold waitRunningLoop
      rw [hR]
      simp
  | succ R ih =>
    intro fuel pool execed hR hRb hstack hs hm hfuel
    cases fuel with
    | zero => omega
    | succ f =>
      have hws : workerStep pool =
          .exited { pool with
                    num_threads_running := sizeSub1 pool.num_threads_running
                    mutex_held := false } := by
        unfold workerStep
        rw [if_pos ⟨hs, hstack⟩]
      obtain ⟨q, hq, h1, h2, h3, h4, h5, h6⟩ :=
        ih f { pool with
               num_threads_running := sizeSub1 pool.num_threads_running
               mutex_held := false } execed
          (by simp only; rw [hR, sizeSub1_succ R (by omega)]) (by omega)
          hstack hs rfl (by omega)
      refine ⟨q, ?_, h1, h2, h3, h4, h5, h6⟩
      unfold waitRunningLoop
      rw [if_neg (by rw [hR]; omega), hws]
      simp [hq]

theorem POOL_destroy_some_inv {pool : Threadpool} {fuel : Nat}
    {p : Threadpool} {ex : List Task}
    (h : POOL_destroy pool fuel = some (p, ex)) :
    ∃ mid ex1 q,
      drainQueueLoop fuel
        { pool with is_shutdown := true, mutex_held := false } [] =
        some (mid, ex1) ∧
      waitRunningLoop fuel mid ex1 = some (q, ex) ∧
      p = { q with resources_freed := true } := by
  unfold POOL_destroy at h
  cases hd : drainQueueLoop fuel
      { pool with is_shutdown := true, mutex_held := false } [] with
  | none => rw [hd] at h; cases h
  | some r =>
    obtain ⟨mid, ex1⟩ := r
    rw [hd] at h
    simp only at h
    cases hw : waitRunningLoop fuel mid ex1 with
    | none => rw [hw] at h; cases h
    | some r2 =>
      obtain ⟨q, ex2⟩ := r2
      rw [hw] at h
      simp only [Option.some.injEq, Prod.mk.injEq] at h
      obtain ⟨h1, h2⟩ := h
      exact ⟨mid, ex1, q, rfl, by rw [h2] at hw; exact hw, h1.symm⟩

/-! ### Claim theorems -/

/-- C1: `POOL_exectask` fails (returns `0`) exactly when `is_shutdown`
is set, and then pushes nothing; when `is_shutdown` is clear it returns
`1` and the queue head becomes the newly submitted task. -/
theorem exectask_fails_iff_shutdown (pool : Threadpool) (fn args : Nat) :
    (pool.is_shutdown = true →
      (POOL_exectask pool fn args).1 = false ∧
      (POOL_exectask pool fn args).2.task_stack = pool.task_stack) ∧
    (pool.is_shutdown = false →
      (POOL_exectask pool fn args).1 = true ∧
      (POOL_exectask pool fn args).2.task_stack =
        Task.mk fn args :: pool.task_stack) := by
  constructor
  · intro hs
    unfold POOL_exectask
    simp [hs]
  · intro hs
    unfold POOL_exectask
    simp [hs]

/-- Witness for C1 at two concrete pools, one shut down, one live. -/
theorem exectask_fails_iff_shutdown_witness :
    ((POOL_exectask ⟨false, [], 4, 4, false, true⟩ 1 2).1 = false ∧
      (POOL_exectask ⟨false, [], 4, 4, false, true⟩ 1 2).2.task_stack = []) ∧
    ((POOL_exectask ⟨false, [], 4, 4, false, false⟩ 1 2).1 = true ∧
      (POOL_exectask ⟨false, [], 4, 4, false, false⟩ 1 2).2.task_stack =
        [⟨1, 2⟩]) :=
  ⟨(exectask_fails_iff_shutdown ⟨false, [], 4, 4, false, true⟩ 1 2).1 rfl,
   (exectask_fails_iff_shutdown ⟨false, [], 4, 4, false, false⟩ 1 2).2 rfl⟩

/-- C2: evaluation of `POOL_exectask` at a shut-down pool whose mutex is
free on entry.  The call takes the failure path and returns with
`mutex_held = true`: the early `return 0` inside the critical section
skips `POOL_CRITICAL_END`, so the pool mutex is NOT released on the
failure path, contradicting the claim. -/
theorem exectask_shutdown_path_keeps_mutex :
    (⟨false, [], 4, 4, false, true⟩ : Threadpool).mutex_held = false ∧
    (POOL_exectask ⟨false, [], 4, 4, false, true⟩ 1 2).1 = false ∧
    (POOL_exectask ⟨false, [], 4, 4, false, true⟩ 1 2).2.mutex_held = true := by
  decide

/-- C4: one worker-loop iteration: with shutdown set and an empty queue
it exits, decrementing `num_threads_running` by exactly one (for any
in-range counter value); with a non-empty queue it removes exactly the
head and keeps the rest; with an empty queue and no shutdown it leaves
the queue unchanged and takes nothing; and it never exits unless
shutdown is set and the queue is empty. -/
theorem worker_loop_step_spec (pool : Threadpool) :
    (pool.is_shutdown = true → pool.task_stack = [] →
      workerStep pool = .exited { pool with
        num_threads_running := sizeSub1 pool.num_threads_running
        mutex_held := false } ∧
      (1 ≤ pool.num_threads_running → pool.num_threads_running < 2 ^ 64 →
        sizeSub1 pool.num_threads_running + 1 = pool.num_threads_running)) ∧
    (∀ (t : Task) (rest : List Task), pool.task_stack = t :: rest →
      workerStep pool =
        .tookTask { pool with task_stack := rest, mutex_held := false } t) ∧
    (pool.is_shutdown = false → pool.task_stack = [] →
      workerStep pool = .noTask { pool with mutex_held := false }) ∧
    (∀ p : Threadpool, workerStep pool = .exited p →
      pool.is_shutdown = true ∧ pool.task_stack = []) := by
  refine ⟨?_, ?_, ?_, ?_⟩
  · intro hs hstack
    refine ⟨?_, fun h1 h2 => sizeSub1_of_pos _ h1 h2⟩
    unfold workerStep
    rw [if_pos ⟨hs, hstack⟩]
  · intro t rest hstack
    unfold workerStep
    rw [hstack]
    simp
  · intro hs hstack
    unfold workerStep
    rw [hstack]
    simp [hs]
  · intro p h
    exact ⟨(workerStep_exited_inv h).1, (workerStep_exited_inv h).2.1⟩

/-- Witness for C4: the three iteration outcomes at concrete pools. -/
theorem worker_loop_step_spec_witness :
    workerStep ⟨false, [], 2, 2, false, true⟩ =
      .exited ⟨false, [], 2, 1, false, true⟩ ∧
    workerStep ⟨false, [⟨7, 8⟩], 2, 2, false, false⟩ =
      .tookTask ⟨false, [], 2, 2, false, false⟩ ⟨7, 8⟩ ∧
    workerStep ⟨false, [], 2, 2, false, false⟩ =
      .noTask ⟨false, [], 2, 2, false, false⟩ := by
  refine ⟨?_, ?_, ?_⟩
  · have h := ((worker_loop_step_spec ⟨false, [], 2, 2, false, true⟩).1 rfl rfl).1
    rw [h]
    simp [sizeSub1]
  · exact (worker_loop_step_spec _).2.1 ⟨7, 8⟩ [] rfl
  · exact (worker_loop_step_spec _).2.2.1 rfl rfl

/-- C6: `POOL_create` yields an empty task stack, shutdown clear, both
thread counters equal to the requested count, and spawns exactly that
many worker threads. -/
theorem create_initial_state (N : Nat) :
    (POOL_create N).1.task_stack = [] ∧
    (POOL_create N).1.is_shutdown = false ∧
    (POOL_create N).1.num_threads = N ∧
    (POOL_create N).1.num_threads_running = N ∧
    (POOL_create N).2 = N :=
  ⟨rfl, rfl, rfl, rfl, rfl⟩

/-- C10: on a live pool `POOL_exectask` accepts any `task_fn`/`task_args`
pair unexamined (including the `NULL` encoding `0`), the new head node
stores exactly that pair, and the next worker dequeue hands back exactly
that pair for invocation. -/
theorem exectask_no_validation (pool : Threadpool) (fn args : Nat)
    (hs : pool.is_shutdown = false) :
    (POOL_exectask pool fn args).1 = true ∧
    (POOL_exectask pool fn args).2.task_stack =
      Task.mk fn args :: pool.task_stack ∧
    workerStep (POOL_exectask pool fn args).2 =
      .tookTask { pool with mutex_held := false } (Task.mk fn args) := by
  have h : POOL_exectask pool fn args =
      (true, { pool with
               task_stack := Task.mk fn args :: pool.task_stack
               mutex_held := false }) := by
    unfold POOL_exectask
    simp [hs]
  rw [h]
  refine ⟨rfl, rfl, ?_⟩
  unfold workerStep
  simp [hs]

/-- Witness for C10 with the `NULL` callable and argument (`0`). -/
theorem exectask_no_validation_witness :
    (POOL_exectask ⟨false, [], 1, 1, false, false⟩ 0 0).1 = true ∧
    (POOL_exectask ⟨false, [], 1, 1, false, false⟩ 0 0).2.task_stack =
      Task.mk 0 0 :: [] ∧
    workerStep (POOL_exectask ⟨false, [], 1, 1, false, false⟩ 0 0).2 =
      .tookTask ⟨false, [], 1, 1, false, false⟩ (Task.mk 0 0) :=
  exectask_no_validation ⟨false, [], 1, 1, false, false⟩ 0 0 rfl

/-- C3: LIFO discipline: after accepted submissions of `a`, `b`, `c` in
that order with no intervening dequeues, the next three worker dequeues
take `c`, then `b`, then `a`, ending with the original queue. -/
theorem lifo_dequeue_order (pool : Threadpool) (a b c : Task)
    (hs : pool.is_shutdown = false) :
    (POOL_exectask pool a.task_fn a.task_args).1 = true ∧
    (POOL_exectask (POOL_exectask pool a.task_fn a.task_args).2
      b.task_fn b.task_args).1 = true ∧
    (POOL_exectask (POOL_exectask (POOL_exectask pool a.task_fn a.task_args).2
      b.task_fn b.task_args).2 c.task_fn c.task_args).1 = true ∧
    ∃ q1 q2 q3,
      workerStep (POOL_exectask (POOL_exectask
          (POOL_exectask pool a.task_fn a.task_args).2
          b.task_fn b.task_args).2 c.task_fn c.task_args).2 =
        .tookTask q1 c ∧
      workerStep q1 = .tookTask q2 b ∧
      workerStep q2 = .tookTask q3 a ∧
      q3.task_stack = pool.task_stack := by
  obtain ⟨a1, a2⟩ := a
  obtain ⟨b1, b2⟩ := b
  obtain ⟨c1, c2⟩ := c
  have ha : POOL_exectask pool a1 a2 =
      (true, { pool with
               task_stack := Task.mk a1 a2 :: pool.task_stack
               mutex_held := false }) := by
    unfold POOL_exectask; simp [hs]
  simp only at ha ⊢
  rw [ha]
  have hb : POOL_exectask
      { pool with task_stack := Task.mk a1 a2 :: pool.task_stack
                  mutex_held := false } b1 b2 =
      (true, { pool with
               task_stack := Task.mk b1 b2 :: Task.mk a1 a2 :: pool.task_stack
               mutex_held := false }) := by
    unfold POOL_exectask; simp [hs]
  rw [hb]
  have hc : POOL_exectask
      { pool with
        task_stack := Task.mk b1 b2 :: Task.mk a1 a2 :: pool.task_stack
        mutex_held := false } c1 c2 =
      (true, { pool with
               task_stack := Task.mk c1 c2 :: Task.mk b1 b2 ::
                 Task.mk a1 a2 :: pool.task_stack
               mutex_held := false }) := by
    unfold POOL_exectask; simp [hs]
  rw [hc]
  refine ⟨rfl, rfl, rfl,
    { pool with task_stack := Task.mk b1 b2 :: Task.mk a1 a2 :: pool.task_stack
                mutex_held := false },
    { pool with task_stack := Task.mk a1 a2 :: pool.task_stack
                mutex_held := false },
    { pool with mutex_held := false }, ?_, ?_, ?_, rfl⟩
  · unfold workerStep; simp [hs]
  · unfold workerStep; simp [hs]
  · unfold workerStep; simp [hs]

/-- Witness for C3 on a concrete empty pool and three distinct tasks. -/
theorem lifo_dequeue_order_witness :
    (POOL_exectask ⟨false, [], 2, 2, false, false⟩ 1 10).1 = true ∧
    (POOL_exectask (POOL_exectask ⟨false, [], 2, 2, false, false⟩ 1 10).2
      2 20).1 = true ∧
    (POOL_exectask (POOL_exectask
      (POOL_exectask ⟨false, [], 2, 2, false, false⟩ 1 10).2 2 20).2
      3 30).1 = true ∧
    ∃ q1 q2 q3,
      workerStep (POOL_exectask (POOL_exectask
          (POOL_exectask ⟨false, [], 2, 2, false, false⟩ 1 10).2 2 20).2
          3 30).2 =
        .tookTask q1 ⟨3, 30⟩ ∧
      workerStep q1 = .tookTask q2 ⟨2, 20⟩ ∧
      workerStep q2 = .tookTask q3 ⟨1, 10⟩ ∧
      q3.task_stack = [] :=
  lifo_dequeue_order ⟨false, [], 2, 2, false, false⟩ ⟨1, 10⟩ ⟨2, 20⟩ ⟨3, 30⟩ rfl

/-- C5: whenever `POOL_destroy` returns, the final pool has the shutdown
flag set, an empty task queue, a zero running counter, and the
resources freed; moreover the return decomposes as the queue-drain wait
succeeding first, then the running-counter wait, and only the value
returned after both waits has `resources_freed` set. -/
theorem destroy_postcondition (pool : Threadpool) (fuel : Nat)
    (p : Threadpool) (ex : List Task)
    (h : POOL_destroy pool fuel = some (p, ex)) :
    p.is_shutdown = true ∧ p.task_stack = [] ∧
    p.num_threads_running = 0 ∧ p.resources_freed = true ∧
    ∃ mid ex1 q,
      drainQueueLoop fuel
        { pool with is_shutdown := true, mutex_held := false } [] =
        some (mid, ex1) ∧
      mid.task_stack = [] ∧ mid.resources_freed = pool.resources_freed ∧
      waitRunningLoop fuel mid ex1 = some (q, ex) ∧
      q.num_threads_running = 0 ∧ q.task_stack = [] ∧
      q.resources_freed = pool.resources_freed ∧
      p = { q with resources_freed := true } := by
  obtain ⟨mid, ex1, q, hd, hw, hp⟩ := POOL_destroy_some_inv h
  obtain ⟨d1, d2, d3, _, _⟩ := drainQueueLoop_some_inv hd
  obtain ⟨w1, w2, w3, _, w5⟩ := waitRunningLoop_some_inv hw
  obtain ⟨w6, _⟩ := w5 d1
  subst hp
  simp only at d2 d3 ⊢
  exact ⟨by rw [w2, d2], w6, w1, trivial,
    mid, ex1, q, hd, d1, d3, hw, w1, w6, by rw [w3, d3], rfl⟩

/-- Witness for C5: one task, one worker, destroy with fuel 5. -/
theorem destroy_postcondition_witness :
    ((⟨false, [], 1, 0, true, true⟩ : Threadpool).is_shutdown = true ∧
      (⟨false, [], 1, 0, true, true⟩ : Threadpool).task_stack = [] ∧
      (⟨false, [], 1, 0, true, true⟩ : Threadpool).num_threads_running = 0 ∧
      (⟨false, [], 1, 0, true, true⟩ : Threadpool).resources_freed = true ∧
      ∃ mid ex1 q,
        drainQueueLoop 5
          { (⟨false, [⟨5, 6⟩], 1, 1, false, false⟩ : Threadpool) with
            is_shutdown := true, mutex_held := false } [] =
          some (mid, ex1) ∧
        mid.task_stack = [] ∧ mid.resources_freed = false ∧
        waitRunningLoop 5 mid ex1 = some (q, [⟨5, 6⟩]) ∧
        q.num_threads_running = 0 ∧ q.task_stack = [] ∧
        q.resources_freed = false ∧
        (⟨false, [], 1, 0, true, true⟩ : Threadpool) =
          { q with resources_freed := true }) :=
  destroy_postcondition ⟨false, [⟨5, 6⟩], 1, 1, false, false⟩ 5
    ⟨false, [], 1, 0, true, true⟩ [⟨5, 6⟩] (by decide)

/-- C7: `num_threads_running` starts at `N`, is never increased by
`POOL_exectask`, by a non-exiting worker iteration, or by
`POOL_destroy`, and an exiting worker iteration decrements it by
exactly one. -/
theorem running_counter_monotone :
    (∀ N : Nat, (POOL_create N).1.num_threads_running = N) ∧
    (∀ (pool : Threadpool) (fn args : Nat),
      (POOL_exectask pool fn args).2.num_threads_running =
        pool.num_threads_running) ∧
    (∀ (pool p : Threadpool) (t : Task), workerStep pool = .tookTask p t →
      p.num_threads_running = pool.num_threads_running) ∧
    (∀ pool p : Threadpool, workerStep pool = .noTask p →
      p.num_threads_running = pool.num_threads_running) ∧
    (∀ pool p : Threadpool, workerStep pool = .exited p →
      1 ≤ pool.num_threads_running → pool.num_threads_running < 2 ^ 64 →
      p.num_threads_running + 1 = pool.num_threads_running) ∧
    (∀ (pool : Threadpool) (fuel : Nat) (p : Threadpool) (ex : List Task),
      POOL_destroy pool fuel = some (p, ex) →
      p.num_threads_running ≤ pool.num_threads_running) := by
  refine ⟨fun _ => rfl, ?_, ?_, ?_, ?_, ?_⟩
  · intro pool fn args
    unfold POOL_exectask
    by_cases hs : pool.is_shutdown = true
    · simp [hs]
    · simp [hs]
  · intro pool p t h
    obtain ⟨rest, _, hp⟩ := workerStep_took_inv h
    subst hp
    rfl
  · intro pool p h
    obtain ⟨_, _, hp⟩ := workerStep_no_inv h
    subst hp
    rfl
  · intro pool p h h1 h2
    obtain ⟨_, _, hp⟩ := workerStep_exited_inv h
    subst hp
    exact sizeSub1_of_pos _ h1 h2
  · intro pool fuel p ex h
    obtain ⟨mid, ex1, q, _, hw, hp⟩ := POOL_destroy_some_inv h
    obtain ⟨w1, _, _, _, _⟩ := waitRunningLoop_some_inv hw
    subst hp
    simp only [w1]
    exact Nat.zero_le _

/-- Witness for C7: an exiting iteration decrementing 2 to 1, and a
completed destroy ending at zero running threads. -/
theorem running_counter_monotone_witness :
    ((⟨false, [], 2, 1, false, true⟩ : Threadpool).num_threads_running + 1 =
      (⟨false, [], 2, 2, false, true⟩ : Threadpool).num_threads_running) ∧
    ((⟨false, [], 1, 0, true, true⟩ : Threadpool).num_threads_running ≤
      (⟨false, [⟨5, 6⟩], 1, 1, false, false⟩ :
        Threadpool).num_threads_running) := by
  constructor
  · exact running_counter_monotone.2.2.2.2.1
      ⟨false, [], 2, 2, false, true⟩ ⟨false, [], 2, 1, false, true⟩
      (by decide) (by decide) (by norm_num)
  · exact running_counter_monotone.2.2.2.2.2
      ⟨false, [⟨5, 6⟩], 1, 1, false, false⟩ 5
      ⟨false, [], 1, 0, true, true⟩ [⟨5, 6⟩] (by decide)

/-- C8: starting from a freshly created pool with at least one worker,
every task in `ts` is accepted by `POOL_exectask`; a subsequent
`POOL_destroy` (given enough fuel) returns, and the tasks executed by
the workers before it returns are exactly `ts` reversed: `ts.length`
executions, each submitted task executed exactly once. -/
theorem accepted_submits_all_executed (N fuel : Nat) (ts : List Task)
    (hN : 1 ≤ N) (hNb : N < 2 ^ 64)
    (hfts : ts.length < fuel) (hfN : N < fuel) :
    (submitAll (POOL_create N).1 ts).1 = true ∧
    ∃ p, POOL_destroy (submitAll (POOL_create N).1 ts).2 fuel =
        some (p, ts.reverse) ∧
      p.task_stack = [] ∧ p.num_threads_running = 0 ∧
      ts.reverse.length = ts.length ∧
      ∀ t : Task, ts.reverse.count t = ts.count t := by
  obtain ⟨q1, hq1, s1, s2, s3, s4, s5, s6⟩ :=
    submitAll_ok ts (POOL_create N).1 rfl rfl
  have hfst : (submitAll (POOL_create N).1 ts).1 = true := by rw [hq1]
  have hsnd : (submitAll (POOL_create N).1 ts).2 = q1 := by rw [hq1]
  refine ⟨hfst, ?_⟩
  obtain ⟨q2, hq2, d1, d2, d3, d4, d5, d6⟩ :=
    drainQueueLoop_run ts.reverse fuel
      { q1 with is_shutdown := true, mutex_held := false } []
      (by simp only; rw [s1]; simp [POOL_create]) rfl rfl
      (by simp only; rw [s4]; simp only [POOL_create]; omega)
      (by rw [List.length_reverse]; exact hfts)
  obtain ⟨q3, hq3, w1, w2, w3, w4, w5, w6⟩ :=
    waitRunningLoop_run N fuel q2 ([] ++ ts.reverse)
      (by rw [d4]; simp only; rw [s4]; simp [POOL_create]) hNb d1 d2 d3 hfN
  refine ⟨{ q3 with resources_freed := true }, ?_, w2, w1,
    List.length_reverse ts, fun t => List.count_reverse t ts⟩
  rw [hsnd]
  unfold POOL_destroy
  rw [hq2]
  simp only
  rw [hq3]
  simp

/-- Witness for C8: two tasks, one worker, fuel 5. -/
theorem accepted_submits_all_executed_witness :
    (submitAll (POOL_create 1).1 [⟨1, 2⟩, ⟨3, 4⟩]).1 = true ∧
    ∃ p, POOL_destroy (submitAll (POOL_create 1).1 [⟨1, 2⟩, ⟨3, 4⟩]).2 5 =
        some (p, ([⟨1, 2⟩, ⟨3, 4⟩] : List Task).reverse) ∧
      p.task_stack = [] ∧ p.num_threads_running = 0 ∧
      ([⟨1, 2⟩, ⟨3, 4⟩] : List Task).reverse.length =
        ([⟨1, 2⟩, ⟨3, 4⟩] : List Task).length ∧
      ∀ t : Task, ([⟨1, 2⟩, ⟨3, 4⟩] : List Task).reverse.count t =
        ([⟨1, 2⟩, ⟨3, 4⟩] : List Task).count t :=
  accepted_submits_all_executed 1 5 [⟨1, 2⟩, ⟨3, 4⟩]
    (by decide) (by norm_num) (by decide) (by decide)

/-- C9: a nonzero return from `pthread_mutex_lock` or
`pthread_mutex_unlock` makes `POOL_CRITICAL_BEGIN` / `POOL_CRITICAL_END`
call `exit(1)`, and therefore `POOL_exectask`, the worker loop body and
`POOL_destroy`'s flag-setting critical section all terminate the process
with status 1 on any lock or unlock failure, never continuing. -/
theorem lock_failure_exits_process (pool : Threadpool) (r : Nat)
    (hr : r ≠ 0) :
    POOL_CRITICAL_BEGIN pool r = .exit 1 ∧
    POOL_CRITICAL_END pool r = .exit 1 ∧
    (∀ fn args u, POOL_exectaskE pool fn args r u = .error 1) ∧
    (∀ u, workerStepE pool r u = .error 1) ∧
    (∀ u, POOL_destroy_setflag pool r u = .error 1) ∧
    (pool.is_shutdown = false →
      ∀ fn args, POOL_exectaskE pool fn args 0 r = .error 1) ∧
    workerStepE pool 0 r = .error 1 ∧
    POOL_destroy_setflag pool 0 r = .error 1 := by
  have hb : ∀ q : Threadpool, POOL_CRITICAL_BEGIN q r = .exit 1 := by
    intro q; unfold POOL_CRITICAL_BEGIN; rw [if_pos hr]
  have he : ∀ q : Threadpool, POOL_CRITICAL_END q r = .exit 1 := by
    intro q; unfold POOL_CRITICAL_END; rw [if_pos hr]
  have hb0 : ∀ q : Threadpool,
      POOL_CRITICAL_BEGIN q 0 = .ok { q with mutex_held := true } := by
    intro q; unfold POOL_CRITICAL_BEGIN; simp
  refine ⟨hb pool, he pool, ?_, ?_, ?_, ?_, ?_, ?_⟩
  · intro fn args u
    unfold POOL_exectaskE
    rw [hb pool]
  · intro u
    unfold workerStepE
    rw [hb pool]
  · intro u
    unfold POOL_destroy_setflag
    rw [hb pool]
  · intro hs fn args
    unfold POOL_exectaskE
    rw [hb0 pool]
    simp [hs, he]
  · unfold workerStepE
    rw [hb0 pool]
    simp only
    split
    · rw [he]
    · split
      · rw [he]
      · rw [he]
  · unfold POOL_destroy_setflag
    rw [hb0 pool]
    simp only
    rw [he]

/-- Witness for C9 at a live concrete pool and lock error code 22. -/
theorem lock_failure_exits_process_witness :
    POOL_CRITICAL_BEGIN ⟨false, [], 1, 1, false, false⟩ 22 = .exit 1 ∧
    POOL_exectaskE ⟨false, [], 1, 1, false, false⟩ 0 0 22 0 = .error 1 ∧
    workerStepE ⟨false, [], 1, 1, false, false⟩ 0 22 = .error 1 :=
  ⟨(lock_failure_exits_process ⟨false, [], 1, 1, false, false⟩ 22
      (by decide)).1,
   (lock_failure_exits_process ⟨false, [], 1, 1, false, false⟩ 22
      (by decide)).2.2.1 0 0 0,
   (lock_failure_exits_process ⟨false, [], 1, 1, false, false⟩ 22
      (by decide)).2.2.2.2.2.2.1⟩

end TP
